import Mathlib

/-!
Shallow embedding of the falling-block puzzle engine in `src/tetris/game.js`.

The imperative JS program mutates a global session (grid, score, lines,
level, dropInterval, current/next piece, hold slot, pause/over flags).
Here every operation is a pure function on an explicit `GameState`.
Randomness (`randomPiece`) is modelled by an explicit oracle stream of
piece types carried in the state; each draw pops the head.

Rendering, audio (`SFX.play`), HUD updates and DOM access in the source
are side effects on external collaborators and are dropped, as the spec
declares them out of scope; every state-relevant assignment is kept.
-/

namespace Tetris

def COLS : Nat := 10
def ROWS : Nat := 20

/-- The seven tetromino kinds (keys of `SHAPES` in the source). -/
inductive PieceType
  | I | O | T | S | Z | J | L
deriving DecidableEq

/-- Color of each kind. The source stores CSS color strings; only their
truthiness matters to the engine, so we code them as the nonzero numbers
1..7 and a grid cell holds `Option Nat` (`none` = the JS `null`). -/
def COLORS : PieceType → Nat
  | .I => 1
  | .O => 2
  | .T => 3
  | .S => 4
  | .Z => 5
  | .J => 6
  | .L => 7

/-- `SHAPES` from the source: the four occupied (x, y) offsets of each kind. -/
def SHAPES : PieceType → List (Int × Int)
  | .I => [(0,1),(1,1),(2,1),(3,1)]
  | .O => [(1,0),(2,0),(1,1),(2,1)]
  | .T => [(1,0),(0,1),(1,1),(2,1)]
  | .S => [(1,1),(2,1),(0,2),(1,2)]
  | .Z => [(0,1),(1,1),(1,2),(2,2)]
  | .J => [(0,0),(0,1),(1,1),(2,1)]
  | .L => [(2,0),(0,1),(1,1),(2,1)]

abbrev Cell := Option Nat
abbrev Grid := List (List Cell)

/-- `createGrid(w, h)`: h rows of w cells, all `null`. Row 0 is the top row. -/
def createGrid (w h : Nat) : Grid :=
  List.replicate h (List.replicate w none)

/-- A piece as in the source: kind, 4 shape offsets, anchor position,
rotation counter and color. -/
structure Piece where
  type : PieceType
  shape : List (Int × Int)
  x : Int
  y : Int
  rot : Nat
  color : Nat
deriving DecidableEq

/-- `pieceFromType(type)`: fresh piece at the spawn anchor (3, -2). -/
def pieceFromType (t : PieceType) : Piece :=
  { type := t, shape := SHAPES t, x := 3, y := -2, rot := 0, color := COLORS t }

/-- `rotate(p)`: bump the rotation counter and map every shape cell
(x, y) to (2 - y, x). -/
def rotatePiece (p : Piece) : Piece :=
  { p with rot := (p.rot + 1) % 4,
           shape := p.shape.map fun d => (2 - d.2, d.1) }

/-- Read `grid[gy][gx]`; total lookup, out-of-range reads give `none`
(the branches in `collides` only reach it with both indices in range). -/
def cellAt (g : Grid) (gy gx : Int) : Cell :=
  if 0 ≤ gy ∧ 0 ≤ gx then (g.getD gy.toNat []).getD gx.toNat none else none

/-- The per-cell test inside the loop of `collides`: cells above the board
(gy < 0) never collide and skip even the horizontal bound check; otherwise
out-of-bound or occupied target cells collide. -/
def cellBad (g : Grid) (p : Piece) (d : Int × Int) : Bool :=
  if p.y + d.2 < 0 then false
  else if p.x + d.1 < 0 ∨ (COLS : Int) ≤ p.x + d.1 ∨ (ROWS : Int) ≤ p.y + d.2 then true
  else (cellAt g (p.y + d.2) (p.x + d.1)).isSome

/-- `collides(p)` over an explicit grid. -/
def collidesb (g : Grid) (p : Piece) : Bool :=
  p.shape.any (cellBad g p)

/-- Write one grid cell; identity when the indices fall outside the
stored rows/columns (a locked piece's visible cells are always in range,
see `collides`). -/
def setCell (g : Grid) (gy gx : Int) (c : Cell) : Grid :=
  if 0 ≤ gy ∧ 0 ≤ gx then
    g.set gy.toNat ((g.getD gy.toNat []).set gx.toNat c)
  else g

/-- `merge(p)`: write the piece's color into every cell with gy >= 0;
cells still above the board are silently dropped. -/
def merge (g : Grid) (p : Piece) : Grid :=
  p.shape.foldl
    (fun acc d =>
      if 0 ≤ p.y + d.2 then setCell acc (p.y + d.2) (p.x + d.1) (some p.color) else acc)
    g

/-- A row is full when every cell is truthy (`grid[y].every(v => v)`). -/
def isFull (row : List Cell) : Bool :=
  row.all fun c => c.isSome

/-- The empty row `Array(COLS).fill(null)` unshifted after a splice. -/
def emptyRow : List Cell := List.replicate COLS none

/-- The scan loop of `clearLines()`: `for (y = ROWS-1; y >= 0; y--)`;
a full row y is spliced out, an empty row is unshifted at the top and the
index is re-checked (`y++` in the body cancels the loop's `y--`).
The source's while-style loop is given explicit fuel; one unit is spent
per iteration, and `clearLinesGrid` supplies fuel `2 * ROWS + 1`, enough
for the at most ROWS + 1 index decrements plus at most ROWS removals. -/
def clearLoop : Grid → Nat → Int → Nat → Grid × Nat
  | g, cleared, _, 0 => (g, cleared)
  | g, cleared, y, fuel + 1 =>
    if y < 0 then (g, cleared)
    else if isFull (g.getD y.toNat []) then
      clearLoop (emptyRow :: g.eraseIdx y.toNat) (cleared + 1) y fuel
    else
      clearLoop g cleared (y - 1) fuel

/-- The grid mutation of `clearLines()` together with the internal
`cleared` counter. The JS function itself has no return statement. -/
def clearLinesGrid (g : Grid) : Grid × Nat :=
  clearLoop g 0 ((ROWS : Int) - 1) (2 * ROWS + 1)

/-- The scoring table `[0, 40, 100, 300, 1200]` of `clearLines()`. -/
def scoreTable : List Nat := [0, 40, 100, 300, 1200]

/-- The gravity speed-up applied on a level increment:
`dropInterval = Math.max(80, Math.floor(dropInterval * 0.85))`.
Exact arithmetic: for every interval value reachable from 800
(800, 680, 578, 491, 417, 354, 300, 255, 216, 183, 155, 131, 111, 94, 80)
the double-precision `Math.floor(d * 0.85)` agrees with `d * 85 / 100`
in natural-number division, so this embedding is exact on the orbit. -/
def levelTick (d : Nat) : Nat := max 80 (d * 85 / 100)

/-- The whole session state held in the source's module-level variables.
`stream` is the oracle feeding `randomPiece()`. -/
structure GameState where
  grid : Grid
  score : Nat
  lines : Nat
  level : Nat
  dropInterval : Nat
  current : Option Piece
  next : Piece
  paused : Bool
  over : Bool
  holdType : Option PieceType
  holdUsed : Bool
  stream : List PieceType
deriving DecidableEq

/-- `clearLines()` in full: the grid pass, then (only when at least one
row was cleared) the score/lines updates and the level / dropInterval
bump. The table access `[0,40,100,300,1200][cleared]` is JS `undefined`
past index 4 (making the score NaN); `getD _ 0` stands in for it and all
score theorems assume `cleared ≤ 4`. -/
def clearLinesState (s : GameState) : GameState :=
  if (clearLinesGrid s.grid).2 = 0 then
    { s with grid := (clearLinesGrid s.grid).1 }
  else
    { s with
      grid := (clearLinesGrid s.grid).1,
      score := s.score + scoreTable.getD (clearLinesGrid s.grid).2 0 * s.level,
      lines := s.lines + (clearLinesGrid s.grid).2,
      level :=
        if s.level * 10 ≤ s.lines + (clearLinesGrid s.grid).2 then s.level + 1 else s.level,
      dropInterval :=
        if s.level * 10 ≤ s.lines + (clearLinesGrid s.grid).2 then levelTick s.dropInterval
        else s.dropInterval }

/-- `spawn()`: promote `next` to `current`, reset its anchor to (3, -2)
and its rotation counter, draw a new `next` from the oracle, re-allow
hold, and set the game-over flag when the spawned piece already collides. -/
def spawnState (s : GameState) : GameState :=
  { s with
    current := some { s.next with x := 3, y := -2, rot := 0 },
    next := pieceFromType (s.stream.headD PieceType.I),
    stream := s.stream.tail,
    holdUsed := false,
    over := s.over || collidesb s.grid { s.next with x := 3, y := -2, rot := 0 } }

/-- `tickLock()`: merge the current piece, evaluate line clears, spawn.
`current` is never null at its call sites. -/
def tickLockState (s : GameState) : GameState :=
  match s.current with
  | none => s
  | some c => spawnState (clearLinesState { s with grid := merge s.grid c })

/-- One-row-down copy used by gravity and the drop loop. -/
def shiftDown (p : Piece) : Piece := { p with y := p.y + 1 }

/-- Horizontal kick copy `w.x += k`. -/
def shiftX (p : Piece) (k : Int) : Piece := { p with x := p.x + k }

/-- The `while (true)` descent of `hardDrop()`: keep taking one-row-down
copies while they do not collide; also report the `moved` flag. Fuel is
spent once per iteration; `dropFuel` below always suffices because any
piece with a cell offset dy ≥ 0 collides once its anchor passes the
floor. -/
def descendLoop (g : Grid) : Piece → Nat → Piece × Bool
  | c, 0 => (c, false)
  | c, fuel + 1 =>
    if collidesb g (shiftDown c) then (c, false)
    else ((descendLoop g (shiftDown c) fuel).1, true)

/-- Fuel bound for `descendLoop`, ample for the source's unbounded loop. -/
def dropFuel (c : Piece) : Nat := ((ROWS : Int) - c.y).toNat + 2

/-- `hardDrop()`: descend to rest; lock via `tickLock` only when the
piece moved at least one row (`if (moved)` in the source). -/
def hardDropState (s : GameState) : GameState :=
  match s.current with
  | none => s
  | some c =>
    if (descendLoop s.grid c (dropFuel c)).2 then
      tickLockState { s with current := some (descendLoop s.grid c (dropFuel c)).1 }
    else s

/-- `move(dx, dy)`: shifted copy accepted only when collision-free.
The source would throw on a null `current`; that point is unreachable
after `reset`, and the embedding returns the state unchanged. -/
def moveState (s : GameState) (dx dy : Int) : GameState :=
  match s.current with
  | none => s
  | some c =>
    if collidesb s.grid { c with x := c.x + dx, y := c.y + dy } then s
    else { s with current := some { c with x := c.x + dx, y := c.y + dy } }

/-- The kick offsets tried by `rotateCurrent()`, in source order. -/
def kickOffsets : List Int := [-1, 1, -2, 2]

/-- The kick search: first offset whose shifted copy is collision-free. -/
def findKick (g : Grid) (p : Piece) : List Int → Option Piece
  | [] => none
  | k :: ks => if collidesb g (shiftX p k) then findKick g p ks else some (shiftX p k)

/-- `rotateCurrent()` on the piece: accept the rotation when legal, else
the first legal kick, else leave the piece unchanged. -/
def rotateCurrentPiece (g : Grid) (c : Piece) : Piece :=
  if collidesb g (rotatePiece c) then (findKick g (rotatePiece c) kickOffsets).getD c
  else rotatePiece c

/-- `rotateCurrent()` on the session. -/
def rotateCurrentState (s : GameState) : GameState :=
  match s.current with
  | none => s
  | some c => { s with current := some (rotateCurrentPiece s.grid c) }

/-- One due gravity step of `update()` (the `dropAccum > dropInterval`
branch): lock when the one-row-down copy collides, else descend. The
time accumulator itself is not part of any claim and is not modelled. -/
def gravityStep (s : GameState) : GameState :=
  if s.paused || s.over then s
  else
    match s.current with
    | none => s
    | some c =>
      if collidesb s.grid (shiftDown c) then tickLockState s
      else { s with current := some (shiftDown c) }

/-- `doHold()`: rejected while paused/over/already-used/null current.
First use stores the type and spawns; later uses swap with the held type,
re-instantiating it at the spawn anchor with a game-over check.
`holdUsed` is set true at the end of every accepted invocation. -/
def doHoldState (s : GameState) : GameState :=
  if s.paused || s.over || s.holdUsed || s.current.isNone then s
  else
    match s.current with
    | none => s
    | some c =>
      match s.holdType with
      | none =>
        { spawnState { s with holdType := some c.type } with holdUsed := true }
      | some swapType =>
        { s with
          holdType := some c.type,
          current := some (pieceFromType swapType),
          over := s.over || collidesb s.grid (pieceFromType swapType),
          holdUsed := true }

/-- `reset()`: fresh grid and counters, draw `next`, then `spawn()`. -/
def resetState (stream : List PieceType) : GameState :=
  spawnState
    { grid := createGrid COLS ROWS, score := 0, lines := 0, level := 1,
      dropInterval := 800, current := none,
      next := pieceFromType (stream.headD PieceType.I),
      paused := false, over := false, holdType := none, holdUsed := false,
      stream := stream.tail }

/-- The player/driver inputs of the keydown handler plus the gravity tick. -/
inductive Op
  | left | right | down | rotateOp | dropOp | holdOp | pauseOp | tick

/-- Input dispatch as in the keydown handler: everything is ignored when
the game is over; only pause toggling passes while paused. -/
def applyOp (s : GameState) (op : Op) : GameState :=
  match op with
  | .tick => gravityStep s
  | .pauseOp => if s.over then s else { s with paused := !s.paused }
  | .left => if s.over || s.paused then s else moveState s (-1) 0
  | .right => if s.over || s.paused then s else moveState s 1 0
  | .down => if s.over || s.paused then s else moveState s 0 1
  | .rotateOp => if s.over || s.paused then s else rotateCurrentState s
  | .dropOp => if s.over || s.paused then s else hardDropState s
  | .holdOp => if s.over || s.paused then s else doHoldState s

/-- A complete session: `reset()` with the given oracle stream, then the
listed inputs. Every state this produces is reachable in play. -/
def run (stream : List PieceType) (ops : List Op) : GameState :=
  ops.foldl applyOp (resetState stream)

/-! ### Spec-side reformulations (named after the spec's words, for the
refinement claims; everything above is translated from the source). -/

/-- Spec-side reading of `rotateCurrent` (spec 4.4): the first
collision-free candidate among the rotated piece and its four kicked
copies, in priority order, else the piece unchanged. -/
def rotateSpec (g : Grid) (c : Piece) : Piece :=
  (([rotatePiece c, shiftX (rotatePiece c) (-1), shiftX (rotatePiece c) 1,
      shiftX (rotatePiece c) (-2), shiftX (rotatePiece c) 2].find?
    fun w => !collidesb g w).getD c)

/-- The claimed gravity-period formula `max(80, round(800 * 0.85^k))` in
exact arithmetic: JS `Math.round` is floor(x + 1/2), so the value is
`(2 * 800 * 85^k + 100^k) / (2 * 100^k)` in natural division. -/
def roundFormula (k : Nat) : Nat :=
  max 80 ((2 * 800 * 85 ^ k + 100 ^ k) / (2 * 100 ^ k))

/-- The bound asserted by the spec for every cell of a piece after
rotation: no cell at x < 0, x ≥ COLS, or y ≥ ROWS (absolute coordinates). -/
def inBoundsClaim (p : Piece) : Bool :=
  p.shape.all fun d =>
    decide (0 ≤ p.x + d.1) && decide (p.x + d.1 < (COLS : Int)) &&
      decide (p.y + d.2 < (ROWS : Int))

/-- The bound the code actually guarantees: cells on the visible board
(absolute y ≥ 0) are within x ∈ [0, COLS) and y < ROWS; cells above the
board are unconstrained. -/
def noVisibleCellOut (p : Piece) : Bool :=
  p.shape.all fun d =>
    decide (p.y + d.2 < 0) ||
      (decide (0 ≤ p.x + d.1) && decide (p.x + d.1 < (COLS : Int)) &&
        decide (p.y + d.2 < (ROWS : Int)))

/-- A freshly spawned active piece that cannot descend one row: the
premise of the spec's loss-of-life rule. -/
def cannotDescend (s : GameState) : Bool :=
  match s.current with
  | some c => collidesb s.grid (shiftDown c)
  | none => false

/-! ### Concrete grids and session states used as inputs below. -/

def emptyGrid : Grid := createGrid COLS ROWS

/-- A completely occupied row. -/
def fullRow : List Cell := List.replicate COLS (some 1)

/-- Board whose bottom row (row 19) is full. -/
def gridOneFull : Grid := List.replicate (ROWS - 1) emptyRow ++ [fullRow]

/-- Board whose bottom five rows are full. -/
def gridFiveFull : Grid := List.replicate (ROWS - 5) emptyRow ++ List.replicate 5 fullRow

/-- A plain mid-session state: empty board, fresh I piece falling. -/
def baseState : GameState :=
  { grid := emptyGrid, score := 0, lines := 0, level := 1, dropInterval := 800,
    current := some (pieceFromType PieceType.I), next := pieceFromType PieceType.O,
    paused := false, over := false, holdType := none, holdUsed := false, stream := [] }

/-- `baseState` over the one-full-row board. -/
def s1Full : GameState := { baseState with grid := gridOneFull }

/-- `baseState` after three level-ups: level 4, 39 lines, interval 491
(the third iterate of the speed-up from 800), bottom row full so the next
lock clears one line and crosses the 40-line threshold. -/
def c5s : GameState :=
  { baseState with grid := gridOneFull, level := 4, lines := 39, dropInterval := 491 }

/-- Oracle stream of I pieces for the played session `c3State`. -/
def c3Stream : List PieceType := List.replicate 12 PieceType.I

/-- Five times rotate-then-hard-drop: stacks five vertical I pieces in
column 4, filling it to the very top. -/
def c3Ops : List Op :=
  [Op.rotateOp, Op.dropOp, Op.rotateOp, Op.dropOp, Op.rotateOp, Op.dropOp,
   Op.rotateOp, Op.dropOp, Op.rotateOp, Op.dropOp]

/-- The session reached by playing `c3Ops` from `reset()`: its freshly
spawned I piece sits above a column that reaches row 0, so it cannot
descend, yet the game is not over. -/
def c3State : GameState := run c3Stream c3Ops

/-- A session whose active piece (a vertical I resting on the floor,
rows 16..19) cannot descend even one row. -/
def c4bad : GameState :=
  { baseState with
    current := some { type := PieceType.I, shape := [(1,0),(1,1),(1,2),(1,3)],
                      x := 3, y := 16, rot := 1, color := 1 } }

/-- A vertical I piece (the I piece after one rotation) moved to the
left wall: every cell is at x = 1, rows -2..1, within the claimed bound. -/
def c6piece : Piece := { rotatePiece (pieceFromType PieceType.I) with x := 0 }

/-- Session holding `c6piece` over an empty board. -/
def c6state : GameState := { baseState with current := some c6piece }

/-- A session whose hold was already used for the current piece. -/
def heldState : GameState := { baseState with holdUsed := true }

/-! ### Helper lemmas about the collision predicate. -/

theorem collidesb_eq_false (g : Grid) (p : Piece) (h : collidesb g p = false) :
    ∀ d ∈ p.shape, cellBad g p d = false := by
  intro d hd
  cases hcb : cellBad g p d
  · rfl
  · have hany : collidesb g p = true := List.any_eq_true.mpr ⟨d, hd, hcb⟩
    simp [hany] at h

theorem cellBad_false_cases (g : Grid) (p : Piece) (d : Int × Int)
    (h : cellBad g p d = false) :
    p.y + d.2 < 0 ∨
      (0 ≤ p.x + d.1 ∧ p.x + d.1 < (COLS : Int) ∧ p.y + d.2 < (ROWS : Int)) := by
  unfold cellBad at h
  split at h
  · exact Or.inl (by assumption)
  · split at h
    · simp at h
    · rename_i hout
      push_neg at hout
      exact Or.inr ⟨hout.1, hout.2.1, hout.2.2⟩

theorem collidesb_of_above (g : Grid) (p : Piece)
    (h : ∀ d ∈ p.shape, p.y + d.2 < 0) : collidesb g p = false := by
  unfold collidesb
  rw [List.any_eq_false]
  intro d hd
  unfold cellBad
  rw [if_pos (h d hd)]
  simp

theorem findKick_collidesb (g : Grid) (p : Piece) :
    ∀ (ks : List Int) (w : Piece), findKick g p ks = some w → collidesb g w = false := by
  intro ks
  induction ks with
  | nil => intro w h; cases h
  | cons k ks ih =>
    intro w h
    unfold findKick at h
    split at h
    · exact ih w h
    · rename_i hcol
      injection h with h2
      rw [← h2]
      simpa using hcol

theorem noVisibleCellOut_of_collidesb_false (g : Grid) (w : Piece)
    (h : collidesb g w = false) : noVisibleCellOut w = true := by
  have hc := collidesb_eq_false g w h
  unfold noVisibleCellOut
  rw [List.all_eq_true]
  intro d hd
  rcases cellBad_false_cases g w d (hc d hd) with hneg | ⟨ha, hb, hcc⟩
  · simp [hneg]
  · simp [ha, hb, hcc]

/-! ### Helper lemmas about the hard-drop descent loop. -/

theorem descendLoop_spec (g : Grid) :
    ∀ (fuel : Nat) (c : Piece), (∃ d ∈ c.shape, 0 ≤ d.2) →
      ((ROWS : Int) - c.y).toNat + 2 ≤ fuel →
      collidesb g (shiftDown (descendLoop g c fuel).1) = true ∧
        ((descendLoop g c fuel).2 = false ↔ collidesb g (shiftDown c) = true) ∧
        (collidesb g c = false → collidesb g (descendLoop g c fuel).1 = false) := by
  intro fuel
  induction fuel with
  | zero => intro c hd hle; omega
  | succ f ih =>
    intro c hd hle
    by_cases hcol : collidesb g (shiftDown c) = true
    · refine ⟨?_, ?_, ?_⟩ <;> simp [descendLoop, hcol]
    · have hcolf : collidesb g (shiftDown c) = false := by simpa using hcol
      obtain ⟨d, hdmem, hdy⟩ := hd
      have hshape : (shiftDown c).shape = c.shape := rfl
      have hy1 : (shiftDown c).y = c.y + 1 := rfl
      have hcell : cellBad g (shiftDown c) d = false :=
        collidesb_eq_false g (shiftDown c) hcolf d (by rw [hshape]; exact hdmem)
      have hrow : (1 : Int) ≤ (ROWS : Int) - c.y := by
        rcases cellBad_false_cases g (shiftDown c) d hcell with hneg | ⟨_, _, hb⟩
        · rw [hy1] at hneg; omega
        · rw [hy1] at hb; omega
      have hle2 : ((ROWS : Int) - (shiftDown c).y).toNat + 2 ≤ f := by
        rw [hy1]; omega
      have hd2 : ∃ d ∈ (shiftDown c).shape, 0 ≤ d.2 := ⟨d, by rw [hshape]; exact hdmem, hdy⟩
      have IH := ih (shiftDown c) hd2 hle2
      simp only [descendLoop, hcolf, if_false, Bool.false_eq_true]
      exact ⟨IH.1, by simp [hcolf], fun _ => IH.2.2 hcolf⟩

/-! ### Helper lemmas about the line-clear scan loop. -/

theorem clearLoop_le :
    ∀ (fuel : Nat) (g : Grid) (c : Nat) (y : Int), c ≤ (clearLoop g c y fuel).2 := by
  intro fuel
  induction fuel with
  | zero => intro g c y; exact Nat.le_refl _
  | succ f ih =>
    intro g c y
    by_cases hy : y < 0
    · simp [clearLoop, hy]
    · by_cases hfull : isFull (g.getD y.toNat []) = true
      · rw [clearLoop, if_neg hy, if_pos hfull]
        exact Nat.le_trans (Nat.le_succ c) (ih _ _ _)
      · rw [clearLoop, if_neg hy, if_neg hfull]
        exact ih _ _ _

theorem clearLoop_grid_of_cleared_eq :
    ∀ (fuel : Nat) (g : Grid) (c : Nat) (y : Int),
      (clearLoop g c y fuel).2 = c → (clearLoop g c y fuel).1 = g := by
  intro fuel
  induction fuel with
  | zero => intro g c y _; rfl
  | succ f ih =>
    intro g c y h
    by_cases hy : y < 0
    · rw [clearLoop, if_pos hy]
    · by_cases hfull : isFull (g.getD y.toNat []) = true
      · rw [clearLoop, if_neg hy, if_pos hfull] at h
        have := clearLoop_le f (emptyRow :: g.eraseIdx y.toNat) (c + 1) y
        omega
      · rw [clearLoop, if_neg hy, if_neg hfull] at h ⊢
        exact ih g c (y - 1) h

theorem length_eraseIdx_add_one :
    ∀ (l : Grid) (i : Nat), i < l.length → (l.eraseIdx i).length + 1 = l.length := by
  intro l
  induction l with
  | nil => intro i h; simp at h
  | cons a t ih =>
    intro i h
    cases i with
    | zero => simp [List.eraseIdx]
    | succ n =>
      simp only [List.eraseIdx, List.length_cons]
      have := ih n (by simpa using h)
      omega

theorem countP_eraseIdx_full :
    ∀ (l : Grid) (i : Nat), i < l.length → isFull (l.getD i []) = true →
      (l.eraseIdx i).countP isFull + 1 = l.countP isFull := by
  intro l
  induction l with
  | nil => intro i h; simp at h
  | cons a t ih =>
    intro i h hfull
    cases i with
    | zero =>
      rw [List.getD_cons_zero] at hfull
      simp [List.eraseIdx, List.countP_cons, hfull]
    | succ n =>
      have h2 : n < t.length := by simpa using h
      have hf2 : isFull (t.getD n []) = true := by rwa [List.getD_cons_succ] at hfull
      simp only [List.eraseIdx, List.countP_cons]
      have := ih n h2 hf2
      omega

theorem clearLoop_count_le :
    ∀ (fuel : Nat) (g : Grid) (c : Nat) (y : Int), y < (g.length : Int) →
      (clearLoop g c y fuel).2 ≤ c + g.countP isFull := by
  intro fuel
  induction fuel with
  | zero => intro g c y _; simp [clearLoop]
  | succ f ih =>
    intro g c y hy
    by_cases hy0 : y < 0
    · simp [clearLoop, hy0]
    · by_cases hfull : isFull (g.getD y.toNat []) = true
      · rw [clearLoop, if_neg hy0, if_pos hfull]
        have hyl : y.toNat < g.length := by omega
        have hlen := length_eraseIdx_add_one g y.toNat hyl
        have hcnt := countP_eraseIdx_full g y.toNat hyl hfull
        have hy2 : y < ((emptyRow :: g.eraseIdx y.toNat).length : Int) := by
          simp only [List.length_cons]
          omega
        have hrec := ih (emptyRow :: g.eraseIdx y.toNat) (c + 1) y hy2
        have hempty : isFull emptyRow = false := by decide
        rw [List.countP_cons, hempty] at hrec
        simp at hrec
        omega
      · rw [clearLoop, if_neg hy0, if_neg hfull]
        exact ih g c (y - 1) (by omega)

/-! ### The claims. -/

/-- C1 (counterexample): `clearLines()` is not free of side effects beyond
the grid. On a board whose bottom row is full it changes both the score
(by 40 at level 1) and the line counter itself. -/
theorem C1_counterexample :
    (clearLinesState s1Full).score ≠ s1Full.score ∧
      (clearLinesState s1Full).lines ≠ s1Full.lines := by decide

/-- C1 (amended): `clearLines()` leaves score, lines, level and
dropInterval (and everything else) unchanged exactly when it clears no
row; when it clears rows it performs the score/lines/level/dropInterval
updates itself rather than leaving them to the caller. -/
theorem C1_theorem (s : GameState) (h : (clearLinesGrid s.grid).2 = 0) :
    clearLinesState s = s := by
  have hg : (clearLinesGrid s.grid).1 = s.grid :=
    clearLoop_grid_of_cleared_eq _ _ _ _ h
  unfold clearLinesState
  rw [if_pos h, hg]

/-- C1 witness: on the empty board no row is cleared and the whole state
is untouched. -/
theorem C1_witness : clearLinesState baseState = baseState :=
  C1_theorem baseState (by decide)

/-- C2 (counterexample): the cleared-row count of one `clearLines()` pass
is not bounded by 4 for every grid it could be handed: on a board with
five full rows the scan removes five. (The JS function moreover returns
`undefined`, not this count; the counter is internal.) -/
theorem C2_counterexample : (clearLinesGrid gridFiveFull).2 = 5 := by decide

/-- C2 (amended): whenever the 20-row grid holds at most four full rows
— as in every state the engine itself can reach, since a lock adds at
most four cells and the previous pass left no full row — the cleared
count of one pass is at most 4. -/
theorem C2_theorem (g : Grid) (hl : g.length = ROWS) (h4 : g.countP isFull ≤ 4) :
    (clearLinesGrid g).2 ≤ 4 := by
  unfold clearLinesGrid
  have hb := clearLoop_count_le (2 * ROWS + 1) g 0 ((ROWS : Int) - 1)
    (by rw [hl]; omega)
  omega

/-- C2 witness: one full row on a 20-row board clears exactly one row,
within the bound. -/
theorem C2_witness : (clearLinesGrid gridOneFull).2 ≤ 4 :=
  C2_theorem gridOneFull (by decide) (by decide)

/-- C3 (counterexample): a reachable session (five rotate-and-hard-drop
inputs from `reset()`, stacking five vertical I pieces up to row 0 of
column 4) whose freshly spawned piece cannot descend one row, yet the
game-over flag is false — and stays false even after the next gravity
step locks the stuck piece. -/
theorem C3_counterexample :
    cannotDescend c3State = true ∧ c3State.over = false ∧
      (gravityStep c3State).over = false := by decide

/-- C3 (amended): the game-over flag is raised by `spawn()` exactly when
the freshly spawned piece already collides at the spawn anchor (or the
session was over already); spawning neither touches the grid nor the
score, and a spawned piece that merely cannot descend does not end the
session. -/
theorem C3_theorem (s : GameState) :
    (spawnState s).over =
        (s.over || collidesb s.grid { s.next with x := 3, y := -2, rot := 0 }) ∧
      (spawnState s).grid = s.grid ∧ (spawnState s).score = s.score :=
  ⟨rfl, rfl, rfl⟩

/-- C4 (counterexample): a session whose active piece rests on the floor
and cannot descend even one row. `hardDrop()` leaves the whole session
unchanged — it does not lock, although locking (`tickLock`) would have
changed the state. -/
theorem C4_counterexample :
    hardDropState c4bad = c4bad ∧ tickLockState c4bad ≠ c4bad := by decide

/-- C4 (amended): `hardDrop()` shifts the active piece down one row at a
time until a further shift would collide and then immediately locks via
`tickLock` — but only when the piece descended at least one row; when
even the first one-row shift collides it leaves the session unchanged.
The resting piece is characterised by: its own position is collision-free
(when the start was) and one more row down collides. -/
theorem C4_theorem (s : GameState) (c : Piece) (hc : s.current = some c)
    (hd : ∃ d ∈ c.shape, 0 ≤ d.2) :
    (collidesb s.grid (shiftDown c) = true → hardDropState s = s) ∧
      (collidesb s.grid (shiftDown c) = false →
        hardDropState s =
            tickLockState { s with current := some (descendLoop s.grid c (dropFuel c)).1 } ∧
          collidesb s.grid (shiftDown (descendLoop s.grid c (dropFuel c)).1) = true ∧
          (collidesb s.grid c = false →
            collidesb s.grid (descendLoop s.grid c (dropFuel c)).1 = false)) := by
  have hspec := descendLoop_spec s.grid (dropFuel c) c hd
    (by unfold dropFuel; exact Nat.le_refl _)
  constructor
  · intro hcol
    have hm : (descendLoop s.grid c (dropFuel c)).2 = false := hspec.2.1.mpr hcol
    unfold hardDropState
    rw [hc]
    simp [hm]
  · intro hcol
    have hm : (descendLoop s.grid c (dropFuel c)).2 = true := by
      cases hm2 : (descendLoop s.grid c (dropFuel c)).2
      · exact absurd (hspec.2.1.mp hm2) (by simp [hcol])
      · rfl
    refine ⟨?_, hspec.1, hspec.2.2⟩
    unfold hardDropState
    rw [hc]
    simp [hm]

/-- C4 witness: the fresh I piece on the empty board descends to rest
and is locked; its resting place is collision-free and one row lower
collides. -/
theorem C4_witness :
    hardDropState baseState =
        tickLockState { baseState with
          current := some (descendLoop baseState.grid (pieceFromType PieceType.I)
            (dropFuel (pieceFromType PieceType.I))).1 } ∧
      collidesb baseState.grid (shiftDown (descendLoop baseState.grid
        (pieceFromType PieceType.I) (dropFuel (pieceFromType PieceType.I))).1) = true ∧
      collidesb baseState.grid (descendLoop baseState.grid (pieceFromType PieceType.I)
        (dropFuel (pieceFromType PieceType.I))).1 = false := by
  have h := (C4_theorem baseState (pieceFromType PieceType.I) rfl (by decide)).2 (by decide)
  exact ⟨h.1, h.2.1, h.2.2 (by decide)⟩

/-- C5 (counterexample): the gravity period after k level-ups is the
k-th iterate of d ↦ max(80, floor(d * 0.85)) from 800, not the claimed
max(80, round(800 * 0.85^k)): at the fourth level-up the code reaches
417 while the claimed formula gives 418. The state `c5s` sits after
three level-ups (interval 491); clearing one line crosses the 40-line
threshold and the code updates the interval to 417. -/
theorem C5_counterexample :
    c5s.dropInterval = levelTick^[3] 800 ∧
      (clearLinesState c5s).level = 5 ∧
      (clearLinesState c5s).dropInterval = levelTick^[4] 800 ∧
      levelTick^[4] 800 = 417 ∧ roundFormula 4 = 418 := by decide

/-- C5 (amended): after k level-ups the dropInterval is the k-th iterate
of the speed-up `levelTick` (d ↦ max(80, floor(d * 0.85))) starting from
800; the sequence never drops below the floor 80 and is monotonically
non-increasing, and each further level-up applies `levelTick` once. -/
theorem C5_theorem (k : Nat) :
    80 ≤ levelTick^[k] 800 ∧
      levelTick^[k + 1] 800 ≤ levelTick^[k] 800 ∧
      levelTick^[k + 1] 800 = levelTick (levelTick^[k] 800) := by
  have h80 : ∀ m : Nat, 80 ≤ levelTick^[m] 800 := by
    intro m
    induction m with
    | zero => simp
    | succ n _ =>
      rw [Function.iterate_succ_apply']
      exact le_max_left _ _
  refine ⟨h80 k, ?_, Function.iterate_succ_apply' levelTick k 800⟩
  rw [Function.iterate_succ_apply']
  have hdec : ∀ d : Nat, 80 ≤ d → levelTick d ≤ d := by
    intro d hd
    unfold levelTick
    omega
  exact hdec _ (h80 k)

/-- C6 (counterexample): a vertical I piece at the left wall satisfies
the claimed bound (all cells at x = 1, y ≤ 1), yet `rotateCurrent()`
accepts its rotation outright — every rotated cell sits above the board,
where `collides` skips the horizontal check — leaving a cell at absolute
x = -1. -/
theorem C6_counterexample :
    inBoundsClaim c6piece = true ∧
      (rotateCurrentState c6state).current =
        some (rotateCurrentPiece c6state.grid c6piece) ∧
      inBoundsClaim (rotateCurrentPiece c6state.grid c6piece) = false := by decide

/-- C6 (amended): after `rotateCurrent()` completes (accepted directly,
via a kick, or rejected), every cell of the active piece lying on the
visible board (absolute y ≥ 0) satisfies 0 ≤ x < COLS and y < ROWS,
provided the piece satisfied that bound before the call; cells still
above the board may violate the horizontal bound. -/
theorem C6_theorem (g : Grid) (c : Piece) (h : noVisibleCellOut c = true) :
    noVisibleCellOut (rotateCurrentPiece g c) = true := by
  unfold rotateCurrentPiece
  split
  · cases hk : findKick g (rotatePiece c) kickOffsets with
    | none => simpa using h
    | some w =>
      rw [Option.getD_some]
      exact noVisibleCellOut_of_collidesb_false g w
        (findKick_collidesb g _ kickOffsets w hk)
  · rename_i hcol
    exact noVisibleCellOut_of_collidesb_false g _ (by simpa using hcol)

/-- C6 witness: the fresh T piece satisfies the visible-cell bound and
still does after its rotation over the empty board. -/
theorem C6_witness :
    noVisibleCellOut (pieceFromType PieceType.T) = true ∧
      noVisibleCellOut (rotateCurrentPiece emptyGrid (pieceFromType PieceType.T)) = true :=
  ⟨by decide, C6_theorem emptyGrid (pieceFromType PieceType.T) (by decide)⟩

/-- C7 (confirmed): `rotate()` maps every occupied cell (x, y) to
(2 - y, x), and `rotateCurrent()` equals its spec reading: the first
collision-free candidate among the rotated piece and its kicks by
-1, +1, -2, +2 in that order, the piece staying exactly unchanged when
all four kicks fail. -/
theorem C7_theorem (g : Grid) (c : Piece) :
    (rotatePiece c).shape = c.shape.map (fun d => (2 - d.2, d.1)) ∧
      rotateCurrentPiece g c = rotateSpec g c := by
  refine ⟨rfl, ?_⟩
  unfold rotateCurrentPiece rotateSpec kickOffsets
  cases h0 : collidesb g (rotatePiece c) <;>
    cases h1 : collidesb g (shiftX (rotatePiece c) (-1)) <;>
      cases h2 : collidesb g (shiftX (rotatePiece c) 1) <;>
        cases h3 : collidesb g (shiftX (rotatePiece c) (-2)) <;>
          cases h4 : collidesb g (shiftX (rotatePiece c) 2) <;>
            simp [findKick, List.find?, h0, h1, h2, h3, h4]

/-- C8 (confirmed): when `holdUsed` is already set for the active piece,
`hold()` leaves the entire session state unchanged. -/
theorem C8_theorem (s : GameState) (h : s.holdUsed = true) : doHoldState s = s := by
  unfold doHoldState
  rw [h]
  simp

/-- C8 witness: a second hold on a session that already held is a no-op. -/
theorem C8_witness : doHoldState heldState = heldState :=
  C8_theorem heldState rfl

/-- C9 (confirmed): a pass clearing n rows, 1 ≤ n ≤ 4, adds exactly
`[0, 40, 100, 300, 1200][n] * level` to the score, where `level` is the
level in effect before any level increment of the same pass (the source
computes the points before the threshold check). -/
theorem C9_theorem (s : GameState) (n : Nat) (hn : (clearLinesGrid s.grid).2 = n)
    (h1 : 1 ≤ n) (h4 : n ≤ 4) :
    (clearLinesState s).score = s.score + scoreTable.getD n 0 * s.level := by
  unfold clearLinesState
  rw [hn, if_neg (by omega)]

/-- C9 witness: clearing the full bottom row at level 1 scores 40. -/
theorem C9_witness :
    (clearLinesState s1Full).score = s1Full.score + scoreTable.getD 1 0 * s1Full.level :=
  C9_theorem s1Full 1 (by decide) (by decide) (by decide)

/-- C10 (confirmed): for every grid, a freshly constructed piece of any
kind other than S and Z has all four cells strictly above the visible
board (absolute y < 0) at the spawn anchor, hence never collides — so a
spawn-time game over can only be triggered by an S or Z piece. -/
theorem C10_theorem (g : Grid) (t : PieceType)
    (hS : t ≠ PieceType.S) (hZ : t ≠ PieceType.Z) :
    collidesb g (pieceFromType t) = false ∧
      ∀ d ∈ (pieceFromType t).shape, (pieceFromType t).y + d.2 < 0 := by
  have habove : ∀ d ∈ (pieceFromType t).shape, (pieceFromType t).y + d.2 < 0 := by
    cases t <;> first
      | exact absurd rfl hS
      | exact absurd rfl hZ
      | decide
  exact ⟨collidesb_of_above g _ habove, habove⟩

/-- C10 witness: a fresh T piece never collides, even on a board with
five full rows. -/
theorem C10_witness : collidesb gridFiveFull (pieceFromType PieceType.T) = false :=
  (C10_theorem gridFiveFull PieceType.T (by decide) (by decide)).1

end Tetris
